import Mathlib

/-!
Verification of the annotation-canvas core of Image_Navigator.

Shallow embedding of src/canvas.py (class ImageCanvas and its marker
classes).  Qt presentation objects (pens, brushes, scene items, cursors)
are not modelled; only the state that the spec's claims are about is:
the loaded image dimensions, the typed marker collections, the shared
undo history, the mode state machine, the box-draft session, the zoom
factor, the overlay/preview visibility flags, and the emitted signals.

Python object identity matters for `list.remove` in `undo_last_marker`,
so every marker carries a unique numeric id drawn from a counter in the
state; structural equality on markers then coincides with Python
identity.  `mapToScene` is external Qt machinery, so pointer events carry
the already-mapped scene position as an exact rational; `int(...)`
truncation toward zero is modelled by `pyInt`.
-/

namespace ImageNavigator

/-- Module-level constant POINT_RADIUS from canvas.py. -/
def POINT_RADIUS : ℕ := 4

/-- Module-level constant ZOOM_FACTOR = 1.15 from canvas.py (exact rational). -/
def ZOOM_FACTOR : ℚ := 1.15

/-- Module-level constant MIN_ZOOM = 0.05 from canvas.py (exact rational). -/
def MIN_ZOOM : ℚ := 0.05

/-- Module-level constant MAX_ZOOM = 50.0 from canvas.py (exact rational). -/
def MAX_ZOOM : ℚ := 50.0

/-- The Mode enum from canvas.py: HAND / POINT / BOX. -/
inductive Mode where
  | HAND
  | POINT
  | BOX
deriving DecidableEq, Repr

/-- PointMarker data (scene items dropped): image coordinates plus the
identity tag standing for the Python object id. -/
structure PointMarker where
  id : ℕ
  img_x : ℤ
  img_y : ℤ
deriving DecidableEq, Repr

/-- BoxMarker data (scene items dropped): normalized corners and the
derived width/height, plus the identity tag. -/
structure BoxMarker where
  id : ℕ
  x1 : ℤ
  y1 : ℤ
  x2 : ℤ
  y2 : ℤ
  width : ℤ
  height : ℤ
deriving DecidableEq, Repr

/-- BoxMarker.__init__: normalizes the two raw corners to top-left /
bottom-right and derives width = abs(x2 - x1), height = abs(y2 - y1). -/
def boxMarkerInit (id : ℕ) (x1 y1 x2 y2 : ℤ) : BoxMarker :=
  { id := id
    x1 := min x1 x2
    y1 := min y1 y2
    x2 := max x1 x2
    y2 := max y1 y2
    width := |x2 - x1|
    height := |y2 - y1| }

/-- An entry of the unified undo history `_marker_history`, which in the
source holds either PointMarker or BoxMarker objects. -/
inductive Marker where
  | point (p : PointMarker)
  | box (b : BoxMarker)
deriving DecidableEq, Repr

/-- Qt signals emitted by ImageCanvas (image_dropped is driven purely by
drag-and-drop payloads, outside the modelled state). -/
inductive Sig where
  | coordChanged (x y : ℤ)
  | pointAdded (x y : ℤ)
  | pointUndone
  | pointsCleared
  | modeChanged (m : Mode)
deriving DecidableEq, Repr

/-- The mutable state of an ImageCanvas instance (presentation-only
fields dropped). `pixmapW`/`pixmapH` are the loaded pixmap's dimensions,
meaningful only while `hasImage = true`. -/
structure CanvasState where
  hasImage : Bool
  pixmapW : ℕ
  pixmapH : ℕ
  markers : List PointMarker
  boxMarkers : List BoxMarker
  markerHistory : List Marker
  mode : Mode
  boxStart : Option (ℤ × ℤ)
  boxTempPoint : Bool
  boxPreviewVisible : Bool
  currentZoom : ℚ
  isPanning : Bool
  panStart : ℚ × ℚ
  overlayVisible : Bool
  nextId : ℕ
  signals : List Sig
deriving DecidableEq, Repr

/-- ImageCanvas.__init__: no image, empty collections, Hand mode, zoom
1.0, no draft, overlays hidden. -/
def initState : CanvasState :=
  { hasImage := false
    pixmapW := 0
    pixmapH := 0
    markers := []
    boxMarkers := []
    markerHistory := []
    mode := Mode.HAND
    boxStart := none
    boxTempPoint := false
    boxPreviewVisible := false
    currentZoom := 1
    isPanning := false
    panStart := (0, 0)
    overlayVisible := false
    nextId := 0
    signals := [] }

/-- Python int() applied to a float scene coordinate: truncation toward
zero of an exact rational. -/
def pyInt (q : ℚ) : ℤ :=
  q.num.tdiv q.den

/-- The bounds test `0 <= img_x < pixmap.width() and 0 <= img_y <
pixmap.height()` used by the move/press handlers. -/
def inPixmap (w h : ℕ) (x y : ℤ) : Prop :=
  0 ≤ x ∧ x < (w : ℤ) ∧ 0 ≤ y ∧ y < (h : ℤ)

instance (w h : ℕ) (x y : ℤ) : Decidable (inPixmap w h x y) := by
  unfold inPixmap; infer_instance

/-- ImageCanvas._cleanup_box_state: drop the draft anchor, remove the
temporary point item, hide the preview rectangle. -/
def cleanup_box_state (s : CanvasState) : CanvasState :=
  { s with boxStart := none, boxTempPoint := false, boxPreviewVisible := false }

/-- ImageCanvas.set_mode: clean up box state when leaving BOX mode, set
the new mode (cursor glyphs unmodelled), and emit mode_changed. -/
def set_mode (s : CanvasState) (m : Mode) : CanvasState :=
  let s1 := if s.mode = Mode.BOX then cleanup_box_state s else s
  { s1 with mode := m, signals := s1.signals ++ [Sig.modeChanged m] }

/-- ImageCanvas.toggle_mode: HAND → POINT → BOX → HAND. -/
def toggle_mode (s : CanvasState) : CanvasState :=
  match s.mode with
  | Mode.HAND => set_mode s Mode.POINT
  | Mode.POINT => set_mode s Mode.BOX
  | Mode.BOX => set_mode s Mode.HAND

/-- ImageCanvas.clear_all: hide overlays, drop all markers and history,
clean up the draft, remove the pixmap, reset zoom (resetTransform and
the placeholder are presentation). -/
def clear_all (s : CanvasState) : CanvasState :=
  let s1 := { s with
    overlayVisible := false
    markers := []
    boxMarkers := []
    markerHistory := [] }
  let s2 := cleanup_box_state s1
  { s2 with hasImage := false, currentZoom := 1 }

/-- ImageCanvas.load_image: a null pixmap (undecodable path) returns
False with no state touched; otherwise clear_all, install the new
pixmap, reset zoom, and return True.  The decoded pixmap is modelled as
`Option (width, height)`, `none` for a null pixmap. -/
def load_image (s : CanvasState) (img : Option (ℕ × ℕ)) : Bool × CanvasState :=
  match img with
  | none => (false, s)
  | some (w, h) =>
    let s1 := clear_all s
    (true, { s1 with hasImage := true, pixmapW := w, pixmapH := h, currentZoom := 1 })

/-- ImageCanvas.fit_view: reset logical zoom to 1.0 when an image is
loaded (fitInView is presentation-scale only, per the spec's §4.1). -/
def fit_view (s : CanvasState) : CanvasState :=
  if s.hasImage = true then { s with currentZoom := 1 } else s

/-- ImageCanvas.clear_points: remove all point and box markers and the
history, emit points_cleared; image, viewport and draft untouched. -/
def clear_points (s : CanvasState) : CanvasState :=
  { s with
    markers := []
    boxMarkers := []
    markerHistory := []
    signals := s.signals ++ [Sig.pointsCleared] }

/-- ImageCanvas.undo_last_marker: pop the history tail, remove the same
object from the typed list matching its runtime class (list.remove with
object identity = erase by the unique id), emit point_undone; early
return when history is empty. -/
def undo_last_marker (s : CanvasState) : CanvasState :=
  match s.markerHistory.getLast? with
  | none => s
  | some m =>
    let s1 := { s with markerHistory := s.markerHistory.dropLast }
    let s2 :=
      match m with
      | Marker.point p => { s1 with markers := s1.markers.erase p }
      | Marker.box b => { s1 with boxMarkers := s1.boxMarkers.erase b }
    { s2 with signals := s2.signals ++ [Sig.pointUndone] }

/-- ImageCanvas.get_points. -/
def get_points (s : CanvasState) : List (ℤ × ℤ) :=
  s.markers.map fun m => (m.img_x, m.img_y)

/-- ImageCanvas.get_boxes. -/
def get_boxes (s : CanvasState) : List (ℤ × ℤ × ℤ × ℤ) :=
  s.boxMarkers.map fun b => (b.x1, b.y1, b.x2, b.y2)

/-- Mouse buttons relevant to the press handler. -/
inductive Button where
  | left
  | middle
  | right
deriving DecidableEq, Repr

/-- ImageCanvas.mousePressEvent.  `pos` is the scene position of the
press (mapToScene already applied); `ctrl` is the Control modifier. -/
def mousePressEvent (s : CanvasState) (btn : Button) (ctrl : Bool) (pos : ℚ × ℚ) :
    CanvasState :=
  if s.hasImage = false then s
  else if btn = Button.right then
    if s.mode = Mode.BOX ∧ s.boxStart ≠ none then cleanup_box_state s
    else undo_last_marker s
  else if btn = Button.middle ∨ (btn = Button.left ∧ ctrl = true) then
    { s with isPanning := true, panStart := pos }
  else if s.mode = Mode.POINT then
    if btn = Button.left then
      let ix := pyInt pos.1
      let iy := pyInt pos.2
      if inPixmap s.pixmapW s.pixmapH ix iy then
        let marker : PointMarker := { id := s.nextId, img_x := ix, img_y := iy }
        { s with
          markers := s.markers ++ [marker]
          markerHistory := s.markerHistory ++ [Marker.point marker]
          nextId := s.nextId + 1
          signals := s.signals ++ [Sig.pointAdded ix iy] }
      else s
    else s
  else if s.mode = Mode.BOX then
    if btn = Button.left then
      let ix := pyInt pos.1
      let iy := pyInt pos.2
      if ¬ inPixmap s.pixmapW s.pixmapH ix iy then s
      else
        match s.boxStart with
        | none =>
          { s with boxStart := some (ix, iy), boxTempPoint := true,
                   boxPreviewVisible := true }
        | some (x1, y1) =>
          let s1 :=
            if ix ≠ x1 ∨ iy ≠ y1 then
              let marker := boxMarkerInit s.nextId x1 y1 ix iy
              { s with
                boxMarkers := s.boxMarkers ++ [marker]
                markerHistory := s.markerHistory ++ [Marker.box marker]
                nextId := s.nextId + 1
                signals := s.signals ++ [Sig.pointAdded x1 y1] }
            else s
          cleanup_box_state s1
    else s
  else
    if btn = Button.left then { s with isPanning := true, panStart := pos }
    else s

/-- ImageCanvas.mouseMoveEvent (scrollbar translation while panning is
viewport presentation, not modelled state). -/
def mouseMoveEvent (s : CanvasState) (pos : ℚ × ℚ) : CanvasState :=
  if s.isPanning = true then { s with panStart := pos }
  else if s.hasImage = false then { s with overlayVisible := false }
  else
    let ix := pyInt pos.1
    let iy := pyInt pos.2
    if inPixmap s.pixmapW s.pixmapH ix iy then
      let s1 := { s with overlayVisible := true,
                         signals := s.signals ++ [Sig.coordChanged ix iy] }
      if s.mode = Mode.BOX ∧ s.boxStart ≠ none then
        { s1 with boxPreviewVisible := true }
      else s1
    else { s with overlayVisible := false }

/-- ImageCanvas.mouseReleaseEvent: end panning (cursor restore is
presentation). -/
def mouseReleaseEvent (s : CanvasState) : CanvasState :=
  if s.isPanning = true then { s with isPanning := false } else s

/-- ImageCanvas.mouseDoubleClickEvent: fit view only in Hand mode with
the primary button and an image loaded; otherwise consumed. -/
def mouseDoubleClickEvent (s : CanvasState) (btn : Button) : CanvasState :=
  if s.hasImage = true ∧ s.mode = Mode.HAND ∧ btn = Button.left then fit_view s
  else s

/-- ImageCanvas.wheelEvent: zoom by ZOOM_FACTOR (sign of angleDelta.y),
applied only when the new zoom stays inside [MIN_ZOOM, MAX_ZOOM];
otherwise the old zoom is retained unchanged. -/
def wheelEvent (s : CanvasState) (deltaY : ℤ) : CanvasState :=
  if s.hasImage = false then s
  else
    let factor : ℚ := if 0 < deltaY then ZOOM_FACTOR else 1 / ZOOM_FACTOR
    let newZoom := s.currentZoom * factor
    if MIN_ZOOM ≤ newZoom ∧ newZoom ≤ MAX_ZOOM then
      { s with currentZoom := newZoom }
    else s

/-- ImageCanvas.leaveEvent: hide both cursor overlays. -/
def leaveEvent (s : CanvasState) : CanvasState :=
  { s with overlayVisible := false }

/-- All externally triggered events of the canvas core. -/
inductive Ev where
  | press (btn : Button) (ctrl : Bool) (pos : ℚ × ℚ)
  | move (pos : ℚ × ℚ)
  | release
  | dblClick (btn : Button)
  | wheel (deltaY : ℤ)
  | leave
  | setMode (m : Mode)
  | toggleMode
  | load (img : Option (ℕ × ℕ))
  | fitView
  | clearPoints
  | clearAll
  | undo

/-- One transition of the canvas for one event. -/
def step (s : CanvasState) (e : Ev) : CanvasState :=
  match e with
  | Ev.press b c p => mousePressEvent s b c p
  | Ev.move p => mouseMoveEvent s p
  | Ev.release => mouseReleaseEvent s
  | Ev.dblClick b => mouseDoubleClickEvent s b
  | Ev.wheel d => wheelEvent s d
  | Ev.leave => leaveEvent s
  | Ev.setMode m => set_mode s m
  | Ev.toggleMode => toggle_mode s
  | Ev.load img => (load_image s img).2
  | Ev.fitView => fit_view s
  | Ev.clearPoints => clear_points s
  | Ev.clearAll => clear_all s
  | Ev.undo => undo_last_marker s

/-- Run a sequence of events from a state. -/
def run (s : CanvasState) (evs : List Ev) : CanvasState :=
  evs.foldl step s

/-- The states the canvas can actually be in. -/
def Reachable (s : CanvasState) : Prop :=
  ∃ evs, s = run initState evs

/-- The PointMarker entries of a history slice, in order (the contents
of `_markers` as a function of `_marker_history`). -/
def pointsOf (h : List Marker) : List PointMarker :=
  h.filterMap fun m =>
    match m with
    | Marker.point p => some p
    | Marker.box _ => none

/-- The BoxMarker entries of a history slice, in order. -/
def boxesOf (h : List Marker) : List BoxMarker :=
  h.filterMap fun m =>
    match m with
    | Marker.point _ => none
    | Marker.box b => some b

/-- The identity tag of a history entry. -/
def markerId : Marker → ℕ
  | Marker.point p => p.id
  | Marker.box b => b.id

/-- The state invariant of the canvas, established for every reachable
state: the typed collections are exactly the projections of the shared
history, identity tags are fresh and distinct, an active draft implies
Box mode with a loaded image and an in-bounds anchor, no image implies
no markers and no draft, every committed box is normalized with
in-bounds corners and not degenerate in both axes, and the zoom factor
is within bounds. -/
structure Inv (s : CanvasState) : Prop where
  markers_eq : s.markers = pointsOf s.markerHistory
  boxes_eq : s.boxMarkers = boxesOf s.markerHistory
  ids_nodup : (s.markerHistory.map markerId).Nodup
  ids_lt : ∀ m ∈ s.markerHistory, markerId m < s.nextId
  draft_ok : ∀ a b, s.boxStart = some (a, b) →
    s.mode = Mode.BOX ∧ s.hasImage = true ∧ inPixmap s.pixmapW s.pixmapH a b
  no_image : s.hasImage = false → s.markerHistory = [] ∧ s.boxStart = none
  box_ok : ∀ b ∈ s.boxMarkers,
    0 ≤ b.x1 ∧ b.x1 ≤ b.x2 ∧ b.x2 < (s.pixmapW : ℤ) ∧
    0 ≤ b.y1 ∧ b.y1 ≤ b.y2 ∧ b.y2 < (s.pixmapH : ℤ) ∧
    b.width = b.x2 - b.x1 ∧ b.height = b.y2 - b.y1 ∧
    (0 < b.width ∨ 0 < b.height)
  zoom_ok : MIN_ZOOM ≤ s.currentZoom ∧ s.currentZoom ≤ MAX_ZOOM

/-- Event sequence refuting C1: load a 100x100 image, enter Box mode,
click (10,10) then (10,50) - the second click differs only in y. -/
def c1CexEvents : List Ev :=
  [Ev.load (some (100, 100)), Ev.setMode Mode.BOX,
   Ev.press Button.left false (10, 10), Ev.press Button.left false (10, 50)]

/-- Witness events for the amended C1: a proper box (10,10)-(50,80). -/
def c1WitEvents : List Ev :=
  [Ev.load (some (100, 100)), Ev.setMode Mode.BOX,
   Ev.press Button.left false (10, 10), Ev.press Button.left false (50, 80)]

/-- Witness events for C2: just a successful load (zoom = 1). -/
def c2WitEvents : List Ev :=
  [Ev.load (some (10, 10))]

/-- A state sitting exactly at MAX_ZOOM, for exercising zoom rejection. -/
def c2EdgeState : CanvasState :=
  { initState with hasImage := true, currentZoom := 50 }

/-- Witness events for C3/C4: one point then one box, interleaved kinds. -/
def c3WitEvents : List Ev :=
  [Ev.load (some (100, 100)), Ev.setMode Mode.POINT,
   Ev.press Button.left false (5, 5), Ev.setMode Mode.BOX,
   Ev.press Button.left false (1, 1), Ev.press Button.left false (3, 4)]

/-- Witness events for C4 (same shape as C3's, separate run). -/
def c4WitEvents : List Ev :=
  [Ev.load (some (100, 100)), Ev.setMode Mode.POINT,
   Ev.press Button.left false (6, 6), Ev.setMode Mode.BOX,
   Ev.press Button.left false (2, 2), Ev.press Button.left false (9, 9)]

/-- Witness events for C5: image with one committed point marker. -/
def c5WitEvents : List Ev :=
  [Ev.load (some (800, 600)), Ev.setMode Mode.POINT,
   Ev.press Button.left false (10, 10)]

/-- Witness events for C6: Box mode with a draft anchored at (10,10). -/
def c6WitEvents : List Ev :=
  [Ev.load (some (100, 100)), Ev.setMode Mode.BOX,
   Ev.press Button.left false (10, 10)]

/-- Witness events for C7: Box mode with a draft anchored at (7,7). -/
def c7WitEvents : List Ev :=
  [Ev.load (some (100, 100)), Ev.setMode Mode.BOX,
   Ev.press Button.left false (7, 7)]

/-- Witness events for C8: switch the fresh canvas to Box mode. -/
def c8WitEvents : List Ev :=
  [Ev.setMode Mode.BOX]

/-- Witness events for C9: image loaded, Point mode, nothing drawn. -/
def c9WitEvents : List Ev :=
  [Ev.load (some (100, 100)), Ev.setMode Mode.POINT]

/-- Witness events for C10: a 200x100 image with one committed box. -/
def c10WitEvents : List Ev :=
  [Ev.load (some (200, 100)), Ev.setMode Mode.BOX,
   Ev.press Button.left false (10, 20), Ev.press Button.left false (150, 90)]

@[simp]
theorem markerId_point (p : PointMarker) : markerId (Marker.point p) = p.id := rfl

@[simp]
theorem markerId_box (b : BoxMarker) : markerId (Marker.box b) = b.id := rfl

@[simp]
theorem pointsOf_nil : pointsOf [] = [] := rfl

@[simp]
theorem boxesOf_nil : boxesOf [] = [] := rfl

@[simp]
theorem pointsOf_append (l1 l2 : List Marker) :
    pointsOf (l1 ++ l2) = pointsOf l1 ++ pointsOf l2 :=
  List.filterMap_append l1 l2 _

@[simp]
theorem boxesOf_append (l1 l2 : List Marker) :
    boxesOf (l1 ++ l2) = boxesOf l1 ++ boxesOf l2 :=
  List.filterMap_append l1 l2 _

@[simp]
theorem pointsOf_point (p : PointMarker) : pointsOf [Marker.point p] = [p] := rfl

@[simp]
theorem pointsOf_box (b : BoxMarker) : pointsOf [Marker.box b] = [] := rfl

@[simp]
theorem boxesOf_point (p : PointMarker) : boxesOf [Marker.point p] = [] := rfl

@[simp]
theorem boxesOf_box (b : BoxMarker) : boxesOf [Marker.box b] = [b] := rfl

theorem mem_pointsOf {p : PointMarker} {h : List Marker} :
    p ∈ pointsOf h ↔ Marker.point p ∈ h := by
  induction h with
  | nil => simp
  | cons m t ih =>
    cases m with
    | point q =>
      simp only [pointsOf, List.filterMap_cons] at *
      simp [List.mem_cons, ih]
    | box b =>
      simp only [pointsOf, List.filterMap_cons] at *
      simp [List.mem_cons, ih]

theorem mem_boxesOf {b : BoxMarker} {h : List Marker} :
    b ∈ boxesOf h ↔ Marker.box b ∈ h := by
  induction h with
  | nil => simp
  | cons m t ih =>
    cases m with
    | point q =>
      simp only [boxesOf, List.filterMap_cons] at *
      simp [List.mem_cons, ih]
    | box c =>
      simp only [boxesOf, List.filterMap_cons] at *
      simp [List.mem_cons, ih]

theorem length_pointsOf_add_boxesOf (h : List Marker) :
    (pointsOf h).length + (boxesOf h).length = h.length := by
  induction h with
  | nil => rfl
  | cons m t ih =>
    cases m with
    | point p =>
      simp only [pointsOf, boxesOf, List.filterMap_cons] at *
      simpa using by omega
    | box b =>
      simp only [pointsOf, boxesOf, List.filterMap_cons] at *
      simpa using by omega

theorem inv_init : Inv initState := by
  constructor <;> simp [initState, MIN_ZOOM, MAX_ZOOM]
  norm_num

theorem inv_cleanup {s : CanvasState} (h : Inv s) : Inv (cleanup_box_state s) := by
  refine ⟨h.markers_eq, h.boxes_eq, h.ids_nodup, h.ids_lt, ?_, ?_, h.box_ok, h.zoom_ok⟩
  · intro a b hab; exact absurd hab (by simp [cleanup_box_state])
  · intro hi; exact ⟨(h.no_image hi).1, rfl⟩

theorem inv_set_mode {s : CanvasState} (h : Inv s) (m : Mode) :
    Inv (set_mode s m) := by
  unfold set_mode
  by_cases hb : s.mode = Mode.BOX
  · simp only [hb, if_pos rfl]
    have h1 := inv_cleanup h
    exact ⟨h1.markers_eq, h1.boxes_eq, h1.ids_nodup, h1.ids_lt,
      fun a b hab => absurd hab (by simp [cleanup_box_state]),
      fun hi => ⟨((inv_cleanup h).no_image hi).1, rfl⟩, h1.box_ok, h1.zoom_ok⟩
  · simp only [if_neg hb]
    have hnone : s.boxStart = none := by
      cases hs : s.boxStart with
      | none => rfl
      | some a => exact absurd (h.draft_ok a.1 a.2 (by rw [hs])).1 hb
    exact ⟨h.markers_eq, h.boxes_eq, h.ids_nodup, h.ids_lt,
      fun a b hab => absurd (hnone ▸ hab) (by simp),
      fun hi => ⟨(h.no_image hi).1, hnone⟩, h.box_ok, h.zoom_ok⟩

theorem inv_toggle_mode {s : CanvasState} (h : Inv s) : Inv (toggle_mode s) := by
  unfold toggle_mode
  cases s.mode <;> exact inv_set_mode h _

theorem inv_clear_all {s : CanvasState} (_h : Inv s) : Inv (clear_all s) := by
  refine ⟨rfl, rfl, by simp [clear_all, cleanup_box_state],
    by simp [clear_all, cleanup_box_state], ?_, ?_,
    by simp [clear_all, cleanup_box_state], ?_⟩
  · intro a b hab; exact absurd hab (by simp [clear_all, cleanup_box_state])
  · intro _; exact ⟨rfl, rfl⟩
  · norm_num [clear_all, cleanup_box_state, MIN_ZOOM, MAX_ZOOM]

theorem inv_load {s : CanvasState} (h : Inv s) (img : Option (ℕ × ℕ)) :
    Inv (load_image s img).2 := by
  cases img with
  | none => exact h
  | some wh =>
    refine ⟨rfl, rfl, by simp [load_image, clear_all, cleanup_box_state],
      by simp [load_image, clear_all, cleanup_box_state], ?_, ?_,
      by simp [load_image, clear_all, cleanup_box_state], ?_⟩
    · intro a b hab
      exact absurd hab (by simp [load_image, clear_all, cleanup_box_state])
    · intro hi; exact absurd hi (by simp [load_image])
    · norm_num [load_image, clear_all, cleanup_box_state, MIN_ZOOM, MAX_ZOOM]

theorem inv_fit_view {s : CanvasState} (h : Inv s) : Inv (fit_view s) := by
  unfold fit_view
  split
  · exact ⟨h.markers_eq, h.boxes_eq, h.ids_nodup, h.ids_lt, h.draft_ok,
      h.no_image, h.box_ok, by norm_num [MIN_ZOOM, MAX_ZOOM]⟩
  · exact h

theorem inv_clear_points {s : CanvasState} (h : Inv s) : Inv (clear_points s) := by
  refine ⟨rfl, rfl, by simp [clear_points], by simp [clear_points],
    ?_, ?_, by simp [clear_points], h.zoom_ok⟩
  · intro a b hab; exact h.draft_ok a b hab
  · intro hi; exact ⟨rfl, (h.no_image hi).2⟩

theorem inv_move {s : CanvasState} (h : Inv s) (pos : ℚ × ℚ) :
    Inv (mouseMoveEvent s pos) := by
  unfold mouseMoveEvent
  split
  · exact ⟨h.markers_eq, h.boxes_eq, h.ids_nodup, h.ids_lt, h.draft_ok,
      h.no_image, h.box_ok, h.zoom_ok⟩
  · split
    · exact ⟨h.markers_eq, h.boxes_eq, h.ids_nodup, h.ids_lt, h.draft_ok,
        h.no_image, h.box_ok, h.zoom_ok⟩
    · dsimp only
      split
      · split
        · exact ⟨h.markers_eq, h.boxes_eq, h.ids_nodup, h.ids_lt, h.draft_ok,
            h.no_image, h.box_ok, h.zoom_ok⟩
        · exact ⟨h.markers_eq, h.boxes_eq, h.ids_nodup, h.ids_lt, h.draft_ok,
            h.no_image, h.box_ok, h.zoom_ok⟩
      · exact ⟨h.markers_eq, h.boxes_eq, h.ids_nodup, h.ids_lt, h.draft_ok,
          h.no_image, h.box_ok, h.zoom_ok⟩

theorem inv_release {s : CanvasState} (h : Inv s) : Inv (mouseReleaseEvent s) := by
  unfold mouseReleaseEvent
  split
  · exact ⟨h.markers_eq, h.boxes_eq, h.ids_nodup, h.ids_lt, h.draft_ok,
      h.no_image, h.box_ok, h.zoom_ok⟩
  · exact h

theorem inv_dbl {s : CanvasState} (h : Inv s) (btn : Button) :
    Inv (mouseDoubleClickEvent s btn) := by
  unfold mouseDoubleClickEvent
  split
  · exact inv_fit_view h
  · exact h

theorem inv_wheel {s : CanvasState} (h : Inv s) (d : ℤ) : Inv (wheelEvent s d) := by
  unfold wheelEvent
  split
  · exact h
  · dsimp only
    split
    · split
      case isTrue hg =>
        exact ⟨h.markers_eq, h.boxes_eq, h.ids_nodup, h.ids_lt, h.draft_ok,
          h.no_image, h.box_ok, hg⟩
      case isFalse => exact h
    · split
      case isTrue hg =>
        exact ⟨h.markers_eq, h.boxes_eq, h.ids_nodup, h.ids_lt, h.draft_ok,
          h.no_image, h.box_ok, hg⟩
      case isFalse => exact h

theorem inv_leave {s : CanvasState} (h : Inv s) : Inv (leaveEvent s) :=
  ⟨h.markers_eq, h.boxes_eq, h.ids_nodup, h.ids_lt, h.draft_ok,
    h.no_image, h.box_ok, h.zoom_ok⟩

theorem undo_of_empty {s : CanvasState} (hnil : s.markerHistory = []) :
    undo_last_marker s = s := by
  unfold undo_last_marker
  rw [hnil]
  rfl

theorem undo_fields (s : CanvasState) :
    (undo_last_marker s).mode = s.mode ∧
    (undo_last_marker s).boxStart = s.boxStart ∧
    (undo_last_marker s).hasImage = s.hasImage ∧
    (undo_last_marker s).pixmapW = s.pixmapW ∧
    (undo_last_marker s).pixmapH = s.pixmapH ∧
    (undo_last_marker s).nextId = s.nextId ∧
    (undo_last_marker s).currentZoom = s.currentZoom := by
  unfold undo_last_marker
  cases s.markerHistory.getLast? with
  | none => exact ⟨rfl, rfl, rfl, rfl, rfl, rfl, rfl⟩
  | some m => cases m <;> exact ⟨rfl, rfl, rfl, rfl, rfl, rfl, rfl⟩

/-- Behaviour of undo_last_marker on the marker store, given the state
invariant: the history tail is popped and the typed collections become
the projections of the shortened history (so exactly the popped marker
leaves its typed collection). -/
theorem undo_spec {s : CanvasState} (h : Inv s) :
    (undo_last_marker s).markerHistory = s.markerHistory.dropLast ∧
    (undo_last_marker s).markers = pointsOf s.markerHistory.dropLast ∧
    (undo_last_marker s).boxMarkers = boxesOf s.markerHistory.dropLast := by
  rcases List.eq_nil_or_concat s.markerHistory with hnil | ⟨t, m, hconcat⟩
  · rw [undo_of_empty hnil, hnil]
    exact ⟨by simp, by simpa using h.markers_eq.trans (by rw [hnil]; rfl),
      by simpa using h.boxes_eq.trans (by rw [hnil]; rfl)⟩
  · rw [List.concat_eq_append] at hconcat
    have hlast : s.markerHistory.getLast? = some m := by
      rw [hconcat]; exact List.getLast?_concat _
    have hdrop : s.markerHistory.dropLast = t := by
      rw [hconcat]; exact List.dropLast_concat
    unfold undo_last_marker
    rw [hlast]
    cases m with
    | point p =>
      have hp : p ∉ pointsOf t := by
        intro hmem
        have h1 : Marker.point p ∈ t := mem_pointsOf.mp hmem
        have h2 : p.id ∈ t.map markerId := by
          have := List.mem_map_of_mem markerId h1
          simpa [markerId] using this
        have h3 := h.ids_nodup
        rw [hconcat, List.map_append] at h3
        rcases List.nodup_append.mp h3 with ⟨-, -, hdisj⟩
        exact hdisj h2 (by simp [markerId])
      refine ⟨rfl, ?_, ?_⟩
      · show s.markers.erase p = pointsOf s.markerHistory.dropLast
        rw [hdrop, h.markers_eq, hconcat]
        rw [pointsOf_append, pointsOf_point,
          List.erase_append_right _ (by simpa using hp)]
        simp
      · show s.boxMarkers = boxesOf s.markerHistory.dropLast
        rw [hdrop, h.boxes_eq, hconcat]
        simp
    | box b =>
      have hb : b ∉ boxesOf t := by
        intro hmem
        have h1 : Marker.box b ∈ t := mem_boxesOf.mp hmem
        have h2 : b.id ∈ t.map markerId := by
          have := List.mem_map_of_mem markerId h1
          simpa [markerId] using this
        have h3 := h.ids_nodup
        rw [hconcat, List.map_append] at h3
        rcases List.nodup_append.mp h3 with ⟨-, -, hdisj⟩
        exact hdisj h2 (by simp [markerId])
      refine ⟨rfl, ?_, ?_⟩
      · show s.markers = pointsOf s.markerHistory.dropLast
        rw [hdrop, h.markers_eq, hconcat]
        simp
      · show s.boxMarkers.erase b = boxesOf s.markerHistory.dropLast
        rw [hdrop, h.boxes_eq, hconcat]
        rw [boxesOf_append, boxesOf_box,
          List.erase_append_right _ (by simpa using hb)]
        simp

theorem inv_undo {s : CanvasState} (h : Inv s) : Inv (undo_last_marker s) := by
  obtain ⟨h1, h2, h3⟩ := undo_spec h
  obtain ⟨fm, fb, fi, fw, fh, fn, fz⟩ := undo_fields s
  refine ⟨?_, ?_, ?_, ?_, ?_, ?_, ?_, ?_⟩
  · rw [h1, h2]
  · rw [h1, h3]
  · rw [h1]
    exact h.ids_nodup.sublist ((List.dropLast_sublist _).map markerId)
  · intro m hm
    rw [h1] at hm
    rw [fn]
    exact h.ids_lt m ((List.dropLast_sublist _).subset hm)
  · intro a b hab
    rw [fb] at hab
    have := h.draft_ok a b hab
    rw [fm, fi, fw, fh]
    exact this
  · intro hi
    rw [fi] at hi
    obtain ⟨hh, hb⟩ := h.no_image hi
    exact ⟨by rw [h1, hh]; rfl, by rw [fb, hb]⟩
  · intro b hb
    rw [h3] at hb
    have h4 : Marker.box b ∈ s.markerHistory :=
      (List.dropLast_sublist _).subset (mem_boxesOf.mp hb)
    have h5 : b ∈ s.boxMarkers := by rw [h.boxes_eq]; exact mem_boxesOf.mpr h4
    rw [fw, fh]
    exact h.box_ok b h5
  · rw [fz]
    exact h.zoom_ok

theorem inv_press {s : CanvasState} (h : Inv s) (btn : Button) (ctrl : Bool)
    (pos : ℚ × ℚ) : Inv (mousePressEvent s btn ctrl pos) := by
  unfold mousePressEvent
  split
  · exact h
  case isFalse himg =>
    have himg' : s.hasImage = true := by
      revert himg; cases s.hasImage <;> simp
    split
    · -- right button
      split
      · exact inv_cleanup h
      · exact inv_undo h
    · split
      · -- middle button or ctrl+left: panning only
        exact ⟨h.markers_eq, h.boxes_eq, h.ids_nodup, h.ids_lt, h.draft_ok,
          h.no_image, h.box_ok, h.zoom_ok⟩
      · split
        case isTrue hpoint =>
          -- Point mode
          split
          · dsimp only
            split
            case isTrue hin =>
              refine ⟨?_, ?_, ?_, ?_, ?_, ?_, h.box_ok, h.zoom_ok⟩
              · rw [h.markers_eq]; simp
              · rw [h.boxes_eq]; simp
              · rw [List.map_append]
                refine List.nodup_append.mpr ⟨h.ids_nodup, by simp, ?_⟩
                intro a ha
                obtain ⟨m, hm, rfl⟩ := List.mem_map.mp ha
                have := h.ids_lt m hm
                simp only [List.map_cons, List.map_nil, markerId_point,
                  List.mem_singleton]
                omega
              · intro m hm
                rcases List.mem_append.mp hm with hm1 | hm2
                · have := h.ids_lt m hm1
                  show markerId m < s.nextId + 1
                  omega
                · simp at hm2
                  subst hm2
                  simp
              · intro a b hab
                exact h.draft_ok a b hab
              · intro hi
                exact absurd hi (by rw [himg']; simp)
            case isFalse => exact h
          · exact h
        case isFalse =>
          split
          case isTrue hbox =>
            -- Box mode
            split
            · dsimp only
              split
              case isTrue => exact h
              case isFalse hnin =>
                have hin := not_not.mp hnin
                split
                case h_1 hstart =>
                  -- first click: start the draft
                  refine ⟨h.markers_eq, h.boxes_eq, h.ids_nodup, h.ids_lt,
                    ?_, ?_, h.box_ok, h.zoom_ok⟩
                  · intro a b hab
                    simp only [Option.some.injEq, Prod.mk.injEq] at hab
                    obtain ⟨rfl, rfl⟩ := hab
                    exact ⟨hbox, himg', hin⟩
                  · intro hi
                    exact absurd hi (by rw [himg']; simp)
                case h_2 x1 y1 hstart =>
                  -- second click: commit unless both coordinates coincide
                  have hanchor := h.draft_ok x1 y1 hstart
                  refine inv_cleanup ?_
                  split
                  case isTrue hne =>
                    refine ⟨?_, ?_, ?_, ?_, ?_, ?_, ?_, h.zoom_ok⟩
                    · rw [h.markers_eq]; simp
                    · rw [h.boxes_eq]; simp
                    · rw [List.map_append]
                      refine List.nodup_append.mpr ⟨h.ids_nodup, by simp, ?_⟩
                      intro a ha
                      obtain ⟨m, hm, rfl⟩ := List.mem_map.mp ha
                      have := h.ids_lt m hm
                      simp only [List.map_cons, List.map_nil, markerId_box,
                        boxMarkerInit, List.mem_singleton]
                      omega
                    · intro m hm
                      rcases List.mem_append.mp hm with hm1 | hm2
                      · have := h.ids_lt m hm1
                        show markerId m < s.nextId + 1
                        omega
                      · simp at hm2
                        subst hm2
                        simp [boxMarkerInit]
                    · intro a b hab
                      exact h.draft_ok a b hab
                    · intro hi
                      exact absurd hi (by rw [himg']; simp)
                    · intro b hb
                      rcases List.mem_append.mp hb with hb1 | hb2
                      · exact h.box_ok b hb1
                      · simp at hb2
                        subst hb2
                        obtain ⟨ha1, ha2, ha3, ha4⟩ := hanchor.2.2
                        obtain ⟨hi1, hi2, hi3, hi4⟩ := hin
                        refine ⟨?_, ?_, ?_, ?_, ?_, ?_, ?_, ?_, ?_⟩ <;>
                          simp only [boxMarkerInit]
                        · exact le_min ha1 hi1
                        · exact min_le_max
                        · exact max_lt ha2 hi2
                        · exact le_min ha3 hi3
                        · exact min_le_max
                        · exact max_lt ha4 hi4
                        · rw [max_sub_min_eq_abs, abs_sub_comm]
                        · rw [max_sub_min_eq_abs, abs_sub_comm]
                        · rcases hne with hne | hne
                          · exact Or.inl (abs_pos.mpr (sub_ne_zero.mpr hne))
                          · exact Or.inr (abs_pos.mpr (sub_ne_zero.mpr hne))
                  case isFalse =>
                    exact h
            · exact h
          case isFalse =>
            -- Hand mode: panning only
            split
            · exact ⟨h.markers_eq, h.boxes_eq, h.ids_nodup, h.ids_lt, h.draft_ok,
                h.no_image, h.box_ok, h.zoom_ok⟩
            · exact h

theorem inv_step {s : CanvasState} (h : Inv s) (e : Ev) : Inv (step s e) := by
  cases e with
  | press b c p => exact inv_press h b c p
  | move p => exact inv_move h p
  | release => exact inv_release h
  | dblClick b => exact inv_dbl h b
  | wheel d => exact inv_wheel h d
  | leave => exact inv_leave h
  | setMode m => exact inv_set_mode h m
  | toggleMode => exact inv_toggle_mode h
  | load img => exact inv_load h img
  | fitView => exact inv_fit_view h
  | clearPoints => exact inv_clear_points h
  | clearAll => exact inv_clear_all h
  | undo => exact inv_undo h

theorem inv_run {s : CanvasState} (h : Inv s) (evs : List Ev) : Inv (run s evs) := by
  induction evs generalizing s with
  | nil => exact h
  | cons e t ih => exact ih (inv_step h e)

theorem inv_reachable {s : CanvasState} (hs : Reachable s) : Inv s := by
  obtain ⟨evs, rfl⟩ := hs
  exact inv_run inv_init evs

theorem reachable_step {s : CanvasState} (hs : Reachable s) (e : Ev) :
    Reachable (step s e) := by
  obtain ⟨evs, rfl⟩ := hs
  exact ⟨evs ++ [e], by simp [run, List.foldl_append]⟩

/-- C1: the claim that every committed BoxMarker has strictly positive
width AND height is false on the code: the second click is committed
whenever it differs from the anchor in at least one axis, so clicking
(10,10) then (10,50) materializes a box with width 0. -/
theorem C1_counterexample :
    (run initState c1CexEvents).boxMarkers ≠ [] ∧
    ¬ (∀ b ∈ (run initState c1CexEvents).boxMarkers,
        b.x1 ≤ b.x2 ∧ b.y1 ≤ b.y2 ∧ b.width = b.x2 - b.x1 ∧
        b.height = b.y2 - b.y1 ∧ 0 < b.width ∧ 0 < b.height) := by
  decide

/-- C1 (amended): every committed BoxMarker is normalized - x1 ≤ x2,
y1 ≤ y2, width = x2 - x1 and height = y2 - y1 - and is not degenerate
in both axes at once (width > 0 or height > 0): a box whose two
defining clicks land on the same pixel is never materialized, but a box
of zero width or zero height (clicks differing in exactly one axis)
can be. -/
theorem C1_box_normalization {s : CanvasState} (hs : Reachable s) :
    ∀ b ∈ s.boxMarkers,
      b.x1 ≤ b.x2 ∧ b.y1 ≤ b.y2 ∧
      b.width = b.x2 - b.x1 ∧ b.height = b.y2 - b.y1 ∧
      (0 < b.width ∨ 0 < b.height) := by
  intro b hb
  obtain ⟨-, h2, -, -, h5, -, h7, h8, h9⟩ := (inv_reachable hs).box_ok b hb
  exact ⟨h2, h5, h7, h8, h9⟩

/-- Witness for the amended C1 at a concrete committed box. -/
theorem C1_box_normalization_witness :
    (boxMarkerInit 0 10 10 50 80).x1 ≤ (boxMarkerInit 0 10 10 50 80).x2 ∧
    (boxMarkerInit 0 10 10 50 80).y1 ≤ (boxMarkerInit 0 10 10 50 80).y2 ∧
    (boxMarkerInit 0 10 10 50 80).width =
      (boxMarkerInit 0 10 10 50 80).x2 - (boxMarkerInit 0 10 10 50 80).x1 ∧
    (boxMarkerInit 0 10 10 50 80).height =
      (boxMarkerInit 0 10 10 50 80).y2 - (boxMarkerInit 0 10 10 50 80).y1 ∧
    (0 < (boxMarkerInit 0 10 10 50 80).width ∨
      0 < (boxMarkerInit 0 10 10 50 80).height) :=
  C1_box_normalization ⟨c1WitEvents, rfl⟩ (boxMarkerInit 0 10 10 50 80) (by decide)

/-- C2: in every reachable state MIN_ZOOM ≤ zoom ≤ MAX_ZOOM, and a
wheel event whose tentative new zoom would leave the bounds is rejected
as a whole no-op - the state, including the old zoom, is returned
unchanged (no partial clamp to the boundary). -/
theorem C2_zoom_bounds :
    (∀ s, Reachable s → MIN_ZOOM ≤ s.currentZoom ∧ s.currentZoom ≤ MAX_ZOOM) ∧
    (∀ s d,
      ¬ (MIN_ZOOM ≤ s.currentZoom * (if 0 < d then ZOOM_FACTOR else 1 / ZOOM_FACTOR) ∧
         s.currentZoom * (if 0 < d then ZOOM_FACTOR else 1 / ZOOM_FACTOR) ≤ MAX_ZOOM) →
      wheelEvent s d = s) := by
  constructor
  · intro s hs
    exact (inv_reachable hs).zoom_ok
  · intro s d hng
    unfold wheelEvent
    split
    · rfl
    · dsimp only
      by_cases hd : 0 < d
      · rw [if_pos hd] at hng ⊢
        rw [if_neg hng]
      · rw [if_neg hd] at hng ⊢
        rw [if_neg hng]

/-- Witness for C2: zoom bound after a concrete load, and rejection of
a zoom-in at exactly MAX_ZOOM. -/
theorem C2_zoom_bounds_witness :
    (MIN_ZOOM ≤ (run initState c2WitEvents).currentZoom ∧
      (run initState c2WitEvents).currentZoom ≤ MAX_ZOOM) ∧
    wheelEvent c2EdgeState 1 = c2EdgeState :=
  ⟨C2_zoom_bounds.1 (run initState c2WitEvents) ⟨c2WitEvents, rfl⟩,
   C2_zoom_bounds.2 c2EdgeState 1
     (by norm_num [c2EdgeState, initState, MIN_ZOOM, MAX_ZOOM, ZOOM_FACTOR])⟩

/-- C3: in every reachable state (hence after every mutating operation)
the history length is the number of points plus the number of boxes,
and a history entry of point kind belongs to the point list and one of
box kind to the box list (and, the kinds being disjoint, to exactly one
of the two collections). -/
theorem C3_history_partition {s : CanvasState} (hs : Reachable s) :
    s.markerHistory.length = s.markers.length + s.boxMarkers.length ∧
    (∀ p, Marker.point p ∈ s.markerHistory ↔ p ∈ s.markers) ∧
    (∀ b, Marker.box b ∈ s.markerHistory ↔ b ∈ s.boxMarkers) := by
  have h := inv_reachable hs
  refine ⟨?_, ?_, ?_⟩
  · rw [h.markers_eq, h.boxes_eq, length_pointsOf_add_boxesOf]
  · intro p
    rw [h.markers_eq]
    exact mem_pointsOf.symm
  · intro b
    rw [h.boxes_eq]
    exact mem_boxesOf.symm

/-- Witness for C3 after committing one point and one box. -/
theorem C3_history_partition_witness :
    (run initState c3WitEvents).markerHistory.length =
      (run initState c3WitEvents).markers.length +
        (run initState c3WitEvents).boxMarkers.length :=
  (C3_history_partition ⟨c3WitEvents, rfl⟩).1

/-- C4: from any reachable state, k undoLastMarker calls leave exactly
the first (length - k) history entries, with the typed collections the
projections of that prefix - each call removes precisely the most
recently committed remaining marker, i.e. markers are removed in exact
reverse commit order across kinds, and undo on an empty history is a
no-op returning the state unchanged. -/
theorem C4_undo_reverse_order {s : CanvasState} (hs : Reachable s) (k : ℕ) :
    (undo_last_marker^[k] s).markerHistory =
      s.markerHistory.take (s.markerHistory.length - k) ∧
    (undo_last_marker^[k] s).markers =
      pointsOf (s.markerHistory.take (s.markerHistory.length - k)) ∧
    (undo_last_marker^[k] s).boxMarkers =
      boxesOf (s.markerHistory.take (s.markerHistory.length - k)) ∧
    (s.markerHistory = [] → undo_last_marker s = s) := by
  have hInv : ∀ n, Inv (undo_last_marker^[n] s) := by
    intro n
    induction n with
    | zero => exact inv_reachable hs
    | succ n ih =>
      rw [Function.iterate_succ_apply']
      exact inv_undo ih
  have main : ∀ n,
      (undo_last_marker^[n] s).markerHistory =
        s.markerHistory.take (s.markerHistory.length - n) ∧
      (undo_last_marker^[n] s).markers =
        pointsOf (s.markerHistory.take (s.markerHistory.length - n)) ∧
      (undo_last_marker^[n] s).boxMarkers =
        boxesOf (s.markerHistory.take (s.markerHistory.length - n)) := by
    intro n
    induction n with
    | zero =>
      have h := inv_reachable hs
      rw [Function.iterate_zero_apply, Nat.sub_zero, List.take_length]
      exact ⟨rfl, h.markers_eq, h.boxes_eq⟩
    | succ n ih =>
      obtain ⟨ih1, ih2, ih3⟩ := ih
      obtain ⟨u1, u2, u3⟩ := undo_spec (hInv n)
      rw [Function.iterate_succ_apply', u1, u2, u3, ih1]
      have htake : (s.markerHistory.take (s.markerHistory.length - n)).dropLast =
          s.markerHistory.take (s.markerHistory.length - (n + 1)) := by
        rw [List.dropLast_eq_take, List.length_take, List.take_take]
        congr 1
        omega
      rw [htake]
      exact ⟨rfl, rfl, rfl⟩
  obtain ⟨m1, m2, m3⟩ := main k
  exact ⟨m1, m2, m3, fun hnil => undo_of_empty hnil⟩

/-- Witness for C4: one undo after committing a point then a box. -/
theorem C4_undo_reverse_order_witness :
    (undo_last_marker^[1] (run initState c4WitEvents)).markerHistory =
      (run initState c4WitEvents).markerHistory.take
        ((run initState c4WitEvents).markerHistory.length - 1) ∧
    (undo_last_marker^[1] (run initState c4WitEvents)).markers =
      pointsOf ((run initState c4WitEvents).markerHistory.take
        ((run initState c4WitEvents).markerHistory.length - 1)) ∧
    (undo_last_marker^[1] (run initState c4WitEvents)).boxMarkers =
      boxesOf ((run initState c4WitEvents).markerHistory.take
        ((run initState c4WitEvents).markerHistory.length - 1)) ∧
    ((run initState c4WitEvents).markerHistory = [] →
      undo_last_marker (run initState c4WitEvents) = run initState c4WitEvents) :=
  C4_undo_reverse_order ⟨c4WitEvents, rfl⟩ 1

/-- C5: load_image with an undecodable image (null pixmap) returns
false and leaves the entire state - image, markers, boxes, history and
viewport - literally unchanged; with a decodable image it returns true
and the new state is exactly the fully cleared state (clear_all) with
the new pixmap installed. -/
theorem C5_load_image_behaviour (s : CanvasState) (img : Option (ℕ × ℕ)) :
    (img = none → load_image s img = (false, s)) ∧
    (∀ w hgt, img = some (w, hgt) →
      load_image s img =
        (true, { clear_all s with hasImage := true, pixmapW := w, pixmapH := hgt })) := by
  constructor
  · rintro rfl
    rfl
  · rintro w hgt rfl
    rfl

/-- Witness for C5: failed load after a point was committed. -/
theorem C5_load_image_witness :
    load_image (run initState c5WitEvents) none = (false, run initState c5WitEvents) ∧
    (load_image (run initState c5WitEvents) (some (640, 480))).1 = true := by
  refine ⟨(C5_load_image_behaviour (run initState c5WitEvents) none).1 rfl, ?_⟩
  rw [(C5_load_image_behaviour (run initState c5WitEvents) (some (640, 480))).2 640 480 rfl]

/-- C6: with an image loaded, Box mode and a draft anchored at (x1,y1),
a primary in-bounds click commits the normalized BoxMarker - appended
to both the box list and the history - exactly when the truncated
coordinate differs from the anchor in at least one axis; when it
coincides exactly, nothing is appended; in both cases the draft anchor
is cleared and the temp point and preview are hidden. -/
theorem C6_box_second_click (s : CanvasState) (x1 y1 : ℤ) (pos : ℚ × ℚ)
    (himg : s.hasImage = true) (hmode : s.mode = Mode.BOX)
    (hstart : s.boxStart = some (x1, y1))
    (hin : inPixmap s.pixmapW s.pixmapH (pyInt pos.1) (pyInt pos.2)) :
    ((pyInt pos.1 ≠ x1 ∨ pyInt pos.2 ≠ y1) →
      (mousePressEvent s Button.left false pos).boxMarkers =
        s.boxMarkers ++
          [boxMarkerInit s.nextId x1 y1 (pyInt pos.1) (pyInt pos.2)] ∧
      (mousePressEvent s Button.left false pos).markerHistory =
        s.markerHistory ++
          [Marker.box (boxMarkerInit s.nextId x1 y1 (pyInt pos.1) (pyInt pos.2))]) ∧
    (pyInt pos.1 = x1 ∧ pyInt pos.2 = y1 →
      (mousePressEvent s Button.left false pos).boxMarkers = s.boxMarkers ∧
      (mousePressEvent s Button.left false pos).markerHistory = s.markerHistory) ∧
    (mousePressEvent s Button.left false pos).boxStart = none ∧
    (mousePressEvent s Button.left false pos).boxTempPoint = false ∧
    (mousePressEvent s Button.left false pos).boxPreviewVisible = false := by
  have hstep : mousePressEvent s Button.left false pos =
      cleanup_box_state
        (if pyInt pos.1 ≠ x1 ∨ pyInt pos.2 ≠ y1 then
          { s with
            boxMarkers := s.boxMarkers ++
              [boxMarkerInit s.nextId x1 y1 (pyInt pos.1) (pyInt pos.2)]
            markerHistory := s.markerHistory ++
              [Marker.box (boxMarkerInit s.nextId x1 y1 (pyInt pos.1) (pyInt pos.2))]
            nextId := s.nextId + 1
            signals := s.signals ++ [Sig.pointAdded x1 y1] }
        else s) := by
    simp [mousePressEvent, himg, hmode, hstart, hin]
  rw [hstep]
  by_cases hne : pyInt pos.1 ≠ x1 ∨ pyInt pos.2 ≠ y1
  · rw [if_pos hne]
    refine ⟨fun _ => ⟨rfl, rfl⟩, fun heq => ?_, rfl, rfl, rfl⟩
    rcases hne with h' | h'
    · exact absurd heq.1 h'
    · exact absurd heq.2 h'
  · rw [if_neg hne]
    exact ⟨fun hd => absurd hd hne, fun _ => ⟨rfl, rfl⟩, rfl, rfl, rfl⟩

/-- Witness for C6: committing the draft anchored at (10,10) with a
second click at (50,80). -/
theorem C6_box_second_click_witness :
    (mousePressEvent (run initState c6WitEvents) Button.left false (50, 80)).boxStart =
      none ∧
    (mousePressEvent (run initState c6WitEvents) Button.left false (50, 80)).boxTempPoint =
      false ∧
    (mousePressEvent (run initState c6WitEvents) Button.left false
      (50, 80)).boxPreviewVisible = false ∧
    (mousePressEvent (run initState c6WitEvents) Button.left false (50, 80)).boxMarkers =
      (run initState c6WitEvents).boxMarkers ++
        [boxMarkerInit (run initState c6WitEvents).nextId 10 10
          (pyInt (50, (80 : ℚ)).1) (pyInt (50, (80 : ℚ)).2)] := by
  obtain ⟨h1, h2, h3, h4, h5⟩ :=
    C6_box_second_click (run initState c6WitEvents) 10 10 (50, 80)
      (by decide) (by decide) (by decide) (by decide)
  exact ⟨h3, h4, h5, (h1 (by decide)).1⟩

/-- C7: a right-button press on a reachable state cancels an active box
draft without touching any marker or the history; with no draft active
it is exactly undo_last_marker, which with an empty history is a no-op
returning the state unchanged.  Draft cancellation has priority over
undo.  (In reachable states an active draft forces Box mode, so this
covers every mode.) -/
theorem C7_right_click {s : CanvasState} (hs : Reachable s) (ctrl : Bool)
    (pos : ℚ × ℚ) :
    (s.boxStart ≠ none →
      (mousePressEvent s Button.right ctrl pos).boxStart = none ∧
      (mousePressEvent s Button.right ctrl pos).markers = s.markers ∧
      (mousePressEvent s Button.right ctrl pos).boxMarkers = s.boxMarkers ∧
      (mousePressEvent s Button.right ctrl pos).markerHistory = s.markerHistory) ∧
    (s.boxStart = none →
      mousePressEvent s Button.right ctrl pos = undo_last_marker s) ∧
    (s.boxStart = none → s.markerHistory = [] →
      mousePressEvent s Button.right ctrl pos = s) := by
  have h := inv_reachable hs
  have hundo : s.boxStart = none →
      mousePressEvent s Button.right ctrl pos = undo_last_marker s := by
    intro hnone
    cases himg : s.hasImage with
    | false =>
      have hstep : mousePressEvent s Button.right ctrl pos = s := by
        simp [mousePressEvent, himg]
      rw [hstep, undo_of_empty (h.no_image himg).1]
    | true =>
      simp [mousePressEvent, himg, hnone]
  refine ⟨?_, hundo, fun hnone hnil => ?_⟩
  · intro hne
    obtain ⟨⟨a, b⟩, hab⟩ := Option.ne_none_iff_exists'.mp hne
    obtain ⟨hmode, himg, -⟩ := h.draft_ok a b hab
    have hstep : mousePressEvent s Button.right ctrl pos = cleanup_box_state s := by
      simp [mousePressEvent, himg, hmode, hne]
    rw [hstep]
    exact ⟨rfl, rfl, rfl, rfl⟩
  · rw [hundo hnone, undo_of_empty hnil]

/-- Witness for C7: right-click cancels the draft anchored at (7,7). -/
theorem C7_right_click_witness :
    (mousePressEvent (run initState c7WitEvents) Button.right false (0, 0)).boxStart =
      none ∧
    (mousePressEvent (run initState c7WitEvents) Button.right false (0, 0)).markers =
      (run initState c7WitEvents).markers ∧
    (mousePressEvent (run initState c7WitEvents) Button.right false (0, 0)).boxMarkers =
      (run initState c7WitEvents).boxMarkers ∧
    (mousePressEvent (run initState c7WitEvents) Button.right false
      (0, 0)).markerHistory = (run initState c7WitEvents).markerHistory :=
  (C7_right_click ⟨c7WitEvents, rfl⟩ false (0, 0)).1 (by decide)

/-- C8: the mode controller starts in Hand; set_mode always lands in
the requested mode; toggle_mode cycles Hand → Point → Box → Hand; any
set or toggle performed while in Box mode clears the draft; and every
set_mode (hence every toggle) appends a mode-changed notification,
idempotent sets included. -/
theorem C8_mode_controller :
    initState.mode = Mode.HAND ∧
    (∀ s m, (set_mode s m).mode = m) ∧
    (∀ s, (toggle_mode s).mode =
      (match s.mode with
        | Mode.HAND => Mode.POINT
        | Mode.POINT => Mode.BOX
        | Mode.BOX => Mode.HAND)) ∧
    (∀ s m, s.mode = Mode.BOX → (set_mode s m).boxStart = none) ∧
    (∀ s, s.mode = Mode.BOX → (toggle_mode s).boxStart = none) ∧
    (∀ s m, (set_mode s m).signals = s.signals ++ [Sig.modeChanged m]) := by
  have hmode : ∀ s m, (set_mode s m).mode = m := by
    intro s m
    unfold set_mode
    split <;> rfl
  have hsig : ∀ s m, (set_mode s m).signals = s.signals ++ [Sig.modeChanged m] := by
    intro s m
    unfold set_mode
    split <;> rfl
  have hclear : ∀ s m, s.mode = Mode.BOX → (set_mode s m).boxStart = none := by
    intro s m hb
    unfold set_mode
    rw [if_pos hb]
    rfl
  refine ⟨rfl, hmode, ?_, hclear, ?_, hsig⟩
  · intro s
    unfold toggle_mode
    cases hm : s.mode <;> exact hmode s _
  · intro s hb
    unfold toggle_mode
    rw [hb]
    exact hclear s Mode.HAND hb

/-- Witness for C8: setting Hand from Box mode clears the draft and
lands in Hand. -/
theorem C8_mode_controller_witness :
    (set_mode (run initState c8WitEvents) Mode.HAND).boxStart = none ∧
    (set_mode (run initState c8WitEvents) Mode.HAND).mode = Mode.HAND :=
  ⟨C8_mode_controller.2.2.2.1 (run initState c8WitEvents) Mode.HAND (by decide),
   C8_mode_controller.2.1 (run initState c8WitEvents) Mode.HAND⟩

/-- C9: a plain primary press whose truncated image coordinate is out
of bounds is silently ignored in Point and Box mode - no marker, no
history entry, no draft change (and no error: the handler is total);
in Point mode an in-bounds plain primary press with an image loaded
commits exactly one new point marker at the truncated coordinate and
appends it to the history. -/
theorem C9_bounds_gating (s : CanvasState) (pos : ℚ × ℚ) :
    (¬ inPixmap s.pixmapW s.pixmapH (pyInt pos.1) (pyInt pos.2) →
      (s.mode = Mode.POINT ∨ s.mode = Mode.BOX) →
      (mousePressEvent s Button.left false pos).markers = s.markers ∧
      (mousePressEvent s Button.left false pos).boxMarkers = s.boxMarkers ∧
      (mousePressEvent s Button.left false pos).markerHistory = s.markerHistory ∧
      (mousePressEvent s Button.left false pos).boxStart = s.boxStart) ∧
    (s.hasImage = true → s.mode = Mode.POINT →
      inPixmap s.pixmapW s.pixmapH (pyInt pos.1) (pyInt pos.2) →
      (mousePressEvent s Button.left false pos).markers =
        s.markers ++
          [{ id := s.nextId, img_x := pyInt pos.1, img_y := pyInt pos.2 }] ∧
      (mousePressEvent s Button.left false pos).markerHistory =
        s.markerHistory ++
          [Marker.point { id := s.nextId, img_x := pyInt pos.1, img_y := pyInt pos.2 }]) := by
  constructor
  · intro hnin hmode
    cases himg : s.hasImage with
    | false =>
      have hstep : mousePressEvent s Button.left false pos = s := by
        simp [mousePressEvent, himg]
      rw [hstep]
      exact ⟨rfl, rfl, rfl, rfl⟩
    | true =>
      rcases hmode with hm | hm
      · have hstep : mousePressEvent s Button.left false pos = s := by
          simp [mousePressEvent, himg, hm, hnin]
        rw [hstep]
        exact ⟨rfl, rfl, rfl, rfl⟩
      · have hstep : mousePressEvent s Button.left false pos = s := by
          simp [mousePressEvent, himg, hm, hnin]
        rw [hstep]
        exact ⟨rfl, rfl, rfl, rfl⟩
  · intro himg hm hin
    have hstep : mousePressEvent s Button.left false pos =
        { s with
          markers := s.markers ++
            [{ id := s.nextId, img_x := pyInt pos.1, img_y := pyInt pos.2 }]
          markerHistory := s.markerHistory ++
            [Marker.point { id := s.nextId, img_x := pyInt pos.1, img_y := pyInt pos.2 }]
          nextId := s.nextId + 1
          signals := s.signals ++ [Sig.pointAdded (pyInt pos.1) (pyInt pos.2)] } := by
      simp [mousePressEvent, himg, hm, hin]
    rw [hstep]
    exact ⟨rfl, rfl⟩

/-- Witness for C9: an out-of-bounds press at (200,200) on a 100x100
image is ignored, an in-bounds press at (20,30) commits a point. -/
theorem C9_bounds_gating_witness :
    (mousePressEvent (run initState c9WitEvents) Button.left false (200, 200)).markers =
      (run initState c9WitEvents).markers ∧
    (mousePressEvent (run initState c9WitEvents) Button.left false (20, 30)).markers =
      (run initState c9WitEvents).markers ++
        [{ id := (run initState c9WitEvents).nextId,
           img_x := pyInt (20, (30 : ℚ)).1, img_y := pyInt (20, (30 : ℚ)).2 }] :=
  ⟨((C9_bounds_gating (run initState c9WitEvents) (200, 200)).1 (by decide)
      (Or.inl (by decide))).1,
   ((C9_bounds_gating (run initState c9WitEvents) (20, 30)).2 (by decide) (by decide)
      (by decide)).1⟩

/-- C10: every committed BoxMarker lies entirely within the image:
0 ≤ x1 ≤ x2 < W and 0 ≤ y1 ≤ y2 < H, because both defining clicks are
bounds-checked against the pixmap before a box can be committed. -/
theorem C10_box_within_image {s : CanvasState} (hs : Reachable s) :
    ∀ b ∈ s.boxMarkers,
      0 ≤ b.x1 ∧ b.x1 ≤ b.x2 ∧ b.x2 < (s.pixmapW : ℤ) ∧
      0 ≤ b.y1 ∧ b.y1 ≤ b.y2 ∧ b.y2 < (s.pixmapH : ℤ) := by
  intro b hb
  obtain ⟨h1, h2, h3, h4, h5, h6, -, -, -⟩ := (inv_reachable hs).box_ok b hb
  exact ⟨h1, h2, h3, h4, h5, h6⟩

/-- Witness for C10 at a concrete committed box on a 200x100 image. -/
theorem C10_box_within_image_witness :
    0 ≤ (boxMarkerInit 0 10 20 150 90).x1 ∧
    (boxMarkerInit 0 10 20 150 90).x1 ≤ (boxMarkerInit 0 10 20 150 90).x2 ∧
    (boxMarkerInit 0 10 20 150 90).x2 <
      ((run initState c10WitEvents).pixmapW : ℤ) ∧
    0 ≤ (boxMarkerInit 0 10 20 150 90).y1 ∧
    (boxMarkerInit 0 10 20 150 90).y1 ≤ (boxMarkerInit 0 10 20 150 90).y2 ∧
    (boxMarkerInit 0 10 20 150 90).y2 <
      ((run initState c10WitEvents).pixmapH : ℤ) :=
  C10_box_within_image ⟨c10WitEvents, rfl⟩ (boxMarkerInit 0 10 20 150 90) (by decide)

end ImageNavigator
